import Mathlib

/-!
Shallow embedding of the mailhog-rs client (`src/lib.rs`): the data model
for captured messages with its serde-derived (de)serialization contract,
the query-string serialization used by `list_messages` and `search`, the
response handling of those two operations, and the test helper
`normalize_body`.  JSON documents are modelled by an explicit syntax tree;
serde decoding of the derived structs is modelled field by field, honoring
the `rename` attributes, the implicit `Option` semantics (absent or `null`
maps to `None`) and the `#[serde(default)]` on `MessageList::items`.
Timestamps (`chrono::DateTime<Utc>`, the `Created` field) are modelled as
nanoseconds since the Unix epoch, produced by an RFC 3339 parser that
requires a timezone-qualified input and converts it to UTC, following
chrono's deserializer for `DateTime<Utc>`.
-/

namespace Mailhog

/-- A JSON document: the wire values the capture service returns.
Numbers are modelled as integers (every numeric field of the wire shape is
an integer). -/
inductive Json where
  | null
  | bool (b : Bool)
  | num (n : Int)
  | str (s : String)
  | arr (elems : List Json)
  | obj (fields : List (String × Json))

/-- Field lookup in a decoded JSON object, first binding wins. -/
def getField : List (String × Json) → String → Option Json
  | [], _ => none
  | (k, v) :: rest, key => if k = key then some v else getField rest key

/-- Decode a JSON value as a string (serde: any other shape is an error). -/
def asString : Json → Option String
  | .str s => some s
  | _ => none

/-- Decode a JSON value as an `i64` (serde: non-numeric shapes error). -/
def asInt : Json → Option Int
  | .num n => some n
  | _ => none

/-- Decode a JSON value as a `usize` (serde: non-numeric or negative
values error). -/
def asNat : Json → Option Nat
  | .num n => if 0 ≤ n then some n.toNat else none
  | _ => none

/-- Decode a JSON value as an array of elements. -/
def asArr : Json → Option (List Json)
  | .arr elems => some elems
  | _ => none

/-- Decode a JSON value as an object (a field list). -/
def asObj : Json → Option (List (String × Json))
  | .obj fields => some fields
  | _ => none

/-- Decode an `Option<String>` field (serde: a missing field or `null`
decodes to `None`, a string to `Some`, anything else errors). -/
def decodeOptString : Option Json → Option (Option String)
  | none => some none
  | some .null => some none
  | some (.str s) => some (some s)
  | some _ => none

/-- Decode every element of a JSON sequence, failing if any element
fails (serde's decoding of `Vec<T>`). -/
def decodeList {α : Type} (f : Json → Option α) : List Json → Option (List α)
  | [] => some []
  | j :: rest =>
    match f j, decodeList f rest with
    | some a, some as => some (a :: as)
    | _, _ => none

/-- The `EmailAddr` struct of `src/lib.rs` (lines 40-50). -/
structure EmailAddr where
  mailbox : String
  domain : String
  params : String
  relays : Option String
deriving DecidableEq

/-- The `Display` impl for `EmailAddr` (lines 52-56): renders
`{mailbox}@{domain}`. -/
def EmailAddr.display (a : EmailAddr) : String := a.mailbox ++ "@" ++ a.domain

/-- Serde decoding of `EmailAddr`: fields renamed `Mailbox`, `Domain`,
`Params`, `Relays`; the `Option<String>` field `relays` tolerates absence
and `null`. -/
def decodeEmailAddr (j : Json) : Option EmailAddr :=
  match asObj j with
  | none => none
  | some fs =>
    match getField fs "Mailbox" >>= asString, getField fs "Domain" >>= asString,
          getField fs "Params" >>= asString, decodeOptString (getField fs "Relays") with
    | some mailbox, some domain, some params, some relays =>
      some ⟨mailbox, domain, params, relays⟩
    | _, _, _, _ => none

/-- The `MessageContent` struct of `src/lib.rs` (lines 58-68); the header
map (`HashMap<String, Vec<String>>`) is modelled as an association list. -/
structure MessageContent where
  headers : List (String × List String)
  body : String
  size : Nat
  mime : Option String
deriving DecidableEq

/-- Serde decoding of a header map entry value (`Vec<String>`). -/
def decodeStringList (j : Json) : Option (List String) :=
  asArr j >>= decodeList asString

/-- Decode each (key, value) pair of a header object in order. -/
def decodeHeaderEntries : List (String × Json) → Option (List (String × List String))
  | [] => some []
  | (k, v) :: rest =>
    match decodeStringList v, decodeHeaderEntries rest with
    | some vs, some tail => some ((k, vs) :: tail)
    | _, _ => none

/-- Serde decoding of `HashMap<String, Vec<String>>`: a JSON object each
of whose values is an array of strings. -/
def decodeHeaders (j : Json) : Option (List (String × List String)) :=
  match asObj j with
  | none => none
  | some fs => decodeHeaderEntries fs

/-- Serde decoding of `MessageContent`: required fields `Headers`, `Body`,
`Size` (a `usize`), optional `MIME`. -/
def decodeMessageContent (j : Json) : Option MessageContent :=
  match asObj j with
  | none => none
  | some fs =>
    match getField fs "Headers" >>= decodeHeaders, getField fs "Body" >>= asString,
          getField fs "Size" >>= asNat, decodeOptString (getField fs "MIME") with
    | some headers, some body, some size, some mime => some ⟨headers, body, size, mime⟩
    | _, _, _, _ => none

/-- Value of one decimal digit character. -/
def digitVal (c : Char) : Option Nat :=
  if '0' ≤ c ∧ c ≤ '9' then some (c.toNat - 48) else none

/-- Read exactly `n` decimal digits, most significant first, onto the
accumulator; fails on a non-digit or premature end. -/
def readDigits : Nat → Nat → List Char → Option (Nat × List Char)
  | 0, acc, cs => some (acc, cs)
  | n + 1, acc, c :: cs =>
    match digitVal c with
    | some d => readDigits n (acc * 10 + d) cs
    | none => none
  | _ + 1, _, [] => none

/-- Expect one specific character. -/
def expectChar (c : Char) : List Char → Option (List Char)
  | x :: rest => if x = c then some rest else none
  | [] => none

/-- Nanoseconds denoted by a fractional-second digit string (the first
nine digits, scaled). -/
def fracNanos (ds : List Char) : Nat :=
  let ds9 := ds.take 9
  (ds9.foldl (fun acc c => acc * 10 + (c.toNat - 48)) 0) * 10 ^ (9 - ds9.length)

/-- Gregorian leap year. -/
def isLeap (y : Int) : Bool := y % 4 = 0 ∧ (y % 100 ≠ 0 ∨ y % 400 = 0)

/-- Days in a month of the proleptic Gregorian calendar. -/
def daysInMonth (y : Int) (m : Nat) : Nat :=
  if m = 2 then (if isLeap y then 29 else 28)
  else if m = 4 ∨ m = 6 ∨ m = 9 ∨ m = 11 then 30
  else 31

/-- Days since 1970-01-01 of a civil date (proleptic Gregorian). -/
def daysFromCivil (y : Int) (m d : Nat) : Int :=
  let y' : Int := if m ≤ 2 then y - 1 else y
  let era : Int := Int.tdiv (if 0 ≤ y' then y' else y' - 399) 400
  let yoe : Int := y' - era * 400
  let mp : Int := (m : Int) + (if 2 < m then -3 else 9)
  let doy : Int := Int.tdiv (153 * mp + 2) 5 + (d : Int) - 1
  let doe : Int := yoe * 365 + Int.tdiv yoe 4 - Int.tdiv yoe 100 + doy
  era * 146097 + doe - 719468

/-- Parse the timezone-offset tail of an RFC 3339 timestamp: `Z`/`z`, or
`±HH:MM`, with nothing after it; the result is the offset in seconds. -/
def parseOffset : List Char → Option Int
  | ['Z'] => some 0
  | ['z'] => some 0
  | c :: cs =>
    if c = '+' ∨ c = '-' then
      match readDigits 2 0 cs with
      | some (oh, ':' :: cs') =>
        match readDigits 2 0 cs' with
        | some (om, []) =>
          if oh ≤ 23 ∧ om ≤ 59 then
            some (if c = '-' then -((oh : Int) * 3600 + om * 60)
                  else (oh : Int) * 3600 + om * 60)
          else none
        | _ => none
      | _ => none
    else none
  | [] => none

/-- Parse the fractional-second part, if present. -/
def parseFrac : List Char → Option (Nat × List Char)
  | '.' :: r =>
    let ds := r.takeWhile fun c => decide ('0' ≤ c ∧ c ≤ '9')
    if ds.isEmpty then none else some (fracNanos ds, r.drop ds.length)
  | cs => some (0, cs)

/-- Combine parsed date, time, fraction and offset into nanoseconds since
the Unix epoch (UTC), validating the component ranges. -/
def civilToNanos (y : Int) (mo d h mi sec nanos : Nat) (off : Int) : Option Int :=
  if 1 ≤ mo ∧ mo ≤ 12 ∧ 1 ≤ d ∧ d ≤ daysInMonth y mo ∧ h ≤ 23 ∧ mi ≤ 59 ∧ sec ≤ 59 then
    some ((daysFromCivil y mo d * 86400 + h * 3600 + mi * 60 + sec - off) * 1000000000
          + nanos)
  else none

/-- Parse an RFC 3339 timestamp (`YYYY-MM-DDTHH:MM:SS[.frac](Z|±HH:MM)`)
into nanoseconds since the Unix epoch (UTC); the timezone qualifier is
mandatory.  Models chrono's deserialization of `DateTime<Utc>`, which
parses the server's timezone-qualified format and converts it to UTC. -/
def parseRfc3339 (s : String) : Option Int :=
  match readDigits 4 0 s.data with
  | none => none
  | some (y, cs) =>
  match expectChar '-' cs with
  | none => none
  | some cs =>
  match readDigits 2 0 cs with
  | none => none
  | some (mo, cs) =>
  match expectChar '-' cs with
  | none => none
  | some cs =>
  match readDigits 2 0 cs with
  | none => none
  | some (d, cs) =>
  match cs with
  | [] => none
  | t :: cs =>
  if t = 'T' ∨ t = 't' then
    match readDigits 2 0 cs with
    | none => none
    | some (h, cs) =>
    match expectChar ':' cs with
    | none => none
    | some cs =>
    match readDigits 2 0 cs with
    | none => none
    | some (mi, cs) =>
    match expectChar ':' cs with
    | none => none
    | some cs =>
    match readDigits 2 0 cs with
    | none => none
    | some (sec, cs) =>
    match parseFrac cs with
    | none => none
    | some (nanos, cs) =>
    match parseOffset cs with
    | none => none
    | some off => civilToNanos (y : Int) mo d h mi sec nanos off
  else none

/-- The `Message` struct of `src/lib.rs` (lines 70-82); `created` is the
decoded `DateTime<Utc>` as nanoseconds since the Unix epoch.  The Rust
field names `from`/`to` are Lean keywords, hence `from_`/`to_`. -/
structure Message where
  id : String
  from_ : EmailAddr
  to_ : List EmailAddr
  content : MessageContent
  created : Int
deriving DecidableEq

/-- The `Ord` impl for `Message` (lines 90-94): compare creation
timestamps (chronological order of the `DateTime<Utc>` values). -/
def Message.cmp (a b : Message) : Ordering := compare a.created b.created

/-- Serde decoding of `Message`: required fields renamed `ID`, `From`,
`To`, `Content`, `Created`; `Created` must be a string parsing as a
timezone-qualified timestamp. -/
def decodeMessage (j : Json) : Option Message :=
  match asObj j with
  | none => none
  | some fs =>
    match getField fs "ID" >>= asString,
          getField fs "From" >>= decodeEmailAddr,
          (getField fs "To" >>= asArr) >>= decodeList decodeEmailAddr,
          getField fs "Content" >>= decodeMessageContent,
          (getField fs "Created" >>= asString) >>= parseRfc3339 with
    | some id, some fr, some to_, some content, some created =>
      some ⟨id, fr, to_, content, created⟩
    | _, _, _, _, _ => none

/-- The `MessageList` struct of `src/lib.rs` (lines 96-103). -/
structure MessageList where
  total : Int
  start : Int
  count : Int
  items : List Message
deriving DecidableEq

/-- Serde decoding of `MessageList`: required `i64` fields `total`,
`start`, `count`; `items` carries `#[serde(default)]`, so a missing
`items` key decodes to the empty vector (while a present key must be an
array of well-formed messages). -/
def decodeMessageList (j : Json) : Option MessageList :=
  match asObj j with
  | none => none
  | some fs =>
    match getField fs "total" >>= asInt, getField fs "start" >>= asInt,
          getField fs "count" >>= asInt,
          (match getField fs "items" with
           | none => some ([] : List Message)
           | some v => asArr v >>= decodeList decodeMessage) with
    | some total, some start, some count, some items => some ⟨total, start, count, items⟩
    | _, _, _, _ => none

/-- The `ListMessagesParams` struct of `src/lib.rs` (lines 16-20). -/
structure ListMessagesParams where
  start : Option Int
  limit : Option Int
deriving DecidableEq

/-- The `SearchKind` enum of `src/lib.rs` (lines 22-30). -/
inductive SearchKind where
  | From
  | To
  | Containing
deriving DecidableEq

/-- Serde serialization of `SearchKind`: the `rename` attributes map each
variant to one fixed lowercase token. -/
def searchKindToken : SearchKind → String
  | .From => "from"
  | .To => "to"
  | .Containing => "containing"

/-- The `SearchParams` struct of `src/lib.rs` (lines 32-38). -/
structure SearchParams where
  kind : SearchKind
  query : String
  start : Option Int
  limit : Option Int
deriving DecidableEq

/-- Query-pair serialization of one `Option<i64>` field, as
`serde_urlencoded` does for `reqwest`'s `.query(&params)`: `None` emits no
pair at all, `Some(n)` emits the key with `n`'s decimal rendering. -/
def optIntPair (key : String) : Option Int → List (String × String)
  | none => []
  | some n => [(key, toString n)]

/-- The query pairs `.query(&params)` appends for `ListMessagesParams`
(fields in declaration order: `start`, then `limit`). -/
def listMessagesQuery (p : ListMessagesParams) : List (String × String) :=
  optIntPair "start" p.start ++ optIntPair "limit" p.limit

/-- The query pairs `.query(&params)` appends for `SearchParams`
(declaration order: `kind`, `query`, `start`, `limit`). -/
def searchQuery (p : SearchParams) : List (String × String) :=
  ("kind", searchKindToken p.kind) :: ("query", p.query)
    :: (optIntPair "start" p.start ++ optIntPair "limit" p.limit)

/-- An HTTP GET request as the client builds it: URL, query pairs and the
`Accept` header. -/
structure Request where
  url : String
  query : List (String × String)
  accept : String
deriving DecidableEq

/-- The request `list_messages` builds (line 118-120): the listing
endpoint with the serialized params and `Accept: application/json`. -/
def listMessagesRequest (base : String) (p : ListMessagesParams) : Request :=
  ⟨base ++ "/api/v2/messages", listMessagesQuery p, "application/json"⟩

/-- The request `search` builds (line 134-136): the search endpoint with
the serialized params and `Accept: application/json`. -/
def searchRequest (base : String) (p : SearchParams) : Request :=
  ⟨base ++ "/api/v2/search", searchQuery p, "application/json"⟩

/-- What executing a request can yield: a transport-level failure
(connection/DNS) before any response, or a response with a status code
and a body. -/
inductive HttpResult where
  | transportError
  | response (status : Nat) (body : Json)

/-- The error taxonomy of the retrieval operations. -/
inductive MhError where
  | transportError
  | httpStatusError (code : Nat)
  | malformedResponse
deriving DecidableEq

/-- Statuses `reqwest::Response::error_for_status` turns into an error:
client errors (400-499) and server errors (500-599). -/
def isErrorStatus (s : Nat) : Bool := 400 ≤ s ∧ s ≤ 599

/-- Response handling shared by `list_messages` and `search` (lines
123-126 and 139-142): a transport failure propagates as is, then
`error_for_status` rejects 4xx/5xx carrying the status code, then the
body is decoded into `MessageList`, any decode failure being a malformed
response. -/
def handleResponse : HttpResult → Except MhError MessageList
  | .transportError => .error .transportError
  | .response status body =>
    if isErrorStatus status then .error (.httpStatusError status)
    else
      match decodeMessageList body with
      | some ml => .ok ml
      | none => .error .malformedResponse

/-- `MailHog::list_messages` (lines 113-127): build the listing request,
execute it once against the server (`srv`), and handle the single
response. -/
def list_messages (srv : Request → HttpResult) (base : String)
    (p : ListMessagesParams) : Except MhError MessageList :=
  handleResponse (srv (listMessagesRequest base p))

/-- `MailHog::search` (lines 129-143): build the search request, execute
it once against the server, and handle the single response. -/
def search (srv : Request → HttpResult) (base : String)
    (p : SearchParams) : Except MhError MessageList :=
  handleResponse (srv (searchRequest base p))

/-- The quoted-printable soft line break: `=` followed by CRLF. -/
def softBreak : List Char := ['=', '\r', '\n']

/-- Left-to-right removal of every non-overlapping occurrence of
`softBreak`, as `str::replace` performs for the pattern. -/
def removeSoftBreaks : List Char → List Char
  | [] => []
  | [c] => [c]
  | [c, d] => [c, d]
  | c :: d :: e :: rest =>
    if c = '=' ∧ d = '\r' ∧ e = '\n' then removeSoftBreaks rest
    else c :: removeSoftBreaks (d :: e :: rest)

/-- The test helper `normalize_body` (lines 241-243):
`b.replace("=\r\n", "")`. -/
def normalize_body (b : String) : String := ⟨removeSoftBreaks b.data⟩

/-- A body interleaved with soft line breaks: one break between adjacent
segments.  `withSoftBreaks segs` is the transport-encoded form of the
body `segs.join`; segments may be empty, so breaks may sit at either end
or be adjacent. -/
def withSoftBreaks : List (List Char) → List Char
  | [] => []
  | [s] => s
  | s :: rest => s ++ softBreak ++ withSoftBreaks rest

/-- Well-formedness of a list payload, following the spec's words: the
response carries the three integer counters and an item array, and its
`count` equals the length of `items` with `count <= total`. -/
def WellFormedListPayload (fs : List (String × Json)) : Prop :=
  ∃ (t s c : Int) (items : List Json),
    getField fs "total" = some (Json.num t) ∧ getField fs "start" = some (Json.num s) ∧
    getField fs "count" = some (Json.num c) ∧ getField fs "items" = some (Json.arr items) ∧
    c = (items.length : Int) ∧ c ≤ t

/-- A decodable `MessageList` body, used to exhibit the behavior of the
response handling on a status-300 response. -/
def body300 : Json :=
  Json.obj [("total", Json.num 0), ("start", Json.num 0), ("count", Json.num 0)]

/-- A well-formed wire `Message`, one concrete item of a list payload. -/
def c9item : Json :=
  Json.obj [("ID", Json.str "m1"),
    ("From", Json.obj [("Mailbox", Json.str "alice"), ("Domain", Json.str "y.com"),
      ("Params", Json.str ""), ("Relays", Json.null)]),
    ("To", Json.arr [Json.obj [("Mailbox", Json.str "bob"), ("Domain", Json.str "x.com"),
      ("Params", Json.str ""), ("Relays", Json.null)]]),
    ("Content", Json.obj [("Headers", Json.obj [("Subject", Json.arr [Json.str "hi"])]),
      ("Body", Json.str "hello"), ("Size", Json.num 5), ("MIME", Json.null)]),
    ("Created", Json.str "2024-05-01T10:30:00+02:00")]

/-- A concrete well-formed list payload holding `c9item`. -/
def c9fields : List (String × Json) :=
  [("total", Json.num 1), ("start", Json.num 0), ("count", Json.num 1),
   ("items", Json.arr [c9item])]

/-- The decoded value of `c9item`; its `created` is the UTC instant of
2024-05-01 08:30:00 in nanoseconds since the Unix epoch. -/
def c9msg : Message :=
  ⟨"m1", ⟨"alice", "y.com", "", none⟩, [⟨"bob", "x.com", "", none⟩],
   ⟨[("Subject", ["hi"])], "hello", 5, none⟩, 1714552200000000000⟩

/-- The decoded value of the payload `c9fields`. -/
def c9ml : MessageList := ⟨1, 0, 1, [c9msg]⟩

theorem removeSoftBreaks_cons_ne (c : Char) (cs : List Char) (h : c ≠ '=') :
    removeSoftBreaks (c :: cs) = c :: removeSoftBreaks cs := by
  match cs with
  | [] => rfl
  | [d] => rfl
  | d :: e :: rest =>
    show (if c = '=' ∧ d = '\r' ∧ e = '\n' then removeSoftBreaks rest
          else c :: removeSoftBreaks (d :: e :: rest)) = _
    rw [if_neg fun hc => h hc.1]

theorem removeSoftBreaks_break (t : List Char) :
    removeSoftBreaks (softBreak ++ t) = removeSoftBreaks t := by
  show (if ('=' : Char) = '=' ∧ ('\r' : Char) = '\r' ∧ ('\n' : Char) = '\n'
        then removeSoftBreaks t else _) = _
  rw [if_pos ⟨rfl, rfl, rfl⟩]

theorem removeSoftBreaks_clean_append (s t : List Char) (h : '=' ∉ s) :
    removeSoftBreaks (s ++ t) = s ++ removeSoftBreaks t := by
  induction s with
  | nil => rfl
  | cons c cs ih =>
    rw [List.mem_cons, not_or] at h
    rw [List.cons_append, removeSoftBreaks_cons_ne c _ (fun hc => h.1 hc.symm), ih h.2,
      List.cons_append]

theorem removeSoftBreaks_id (s : List Char) (h : '=' ∉ s) :
    removeSoftBreaks s = s := by
  have h2 := removeSoftBreaks_clean_append s [] h
  simpa [removeSoftBreaks] using h2

theorem removeSoftBreaks_withSoftBreaks (segs : List (List Char))
    (h : '=' ∉ segs.flatten) : removeSoftBreaks (withSoftBreaks segs) = segs.flatten := by
  induction segs with
  | nil => rfl
  | cons s rest ih =>
    cases rest with
    | nil =>
      rw [List.flatten_cons, List.flatten_nil, List.append_nil] at h ⊢
      exact removeSoftBreaks_id s h
    | cons r rs =>
      rw [List.flatten_cons] at h
      rw [List.mem_append, not_or] at h
      show removeSoftBreaks (s ++ softBreak ++ withSoftBreaks (r :: rs)) = _
      rw [List.append_assoc, removeSoftBreaks_clean_append s _ h.1,
        removeSoftBreaks_break, ih h.2]
      simp [List.flatten_cons]

/-- C1: normalization (`normalize_body`) removes every occurrence of `=`
immediately followed by CRLF from a retrieved body — for any body
obtained by interleaving soft line breaks into a sent body that contains
no character requiring quoted-printable encoding (no `=`, hence no
`=\r\n`), the normalized result carries no soft break — and normalizing
such a retrieved body yields exactly the sent body (round-trip
identity). -/
theorem c1_normalize_roundtrip (segs : List (List Char)) (h : '=' ∉ segs.flatten) :
    normalize_body ⟨withSoftBreaks segs⟩ = ⟨segs.flatten⟩ ∧
    ¬ softBreak <:+: (normalize_body ⟨withSoftBreaks segs⟩).data := by
  have hmain : removeSoftBreaks (withSoftBreaks segs) = segs.flatten :=
    removeSoftBreaks_withSoftBreaks segs h
  constructor
  · show (⟨removeSoftBreaks (withSoftBreaks segs)⟩ : String) = _
    rw [hmain]
  · show ¬ softBreak <:+: removeSoftBreaks (withSoftBreaks segs)
    rw [hmain]
    intro hinf
    exact h (hinf.subset (by simp [softBreak]))

/-- Witness for C1 at a concrete segmentation: the sent body `hiyou`,
retrieved as `hi=\r\n=\r\nyou`, normalizes back to `hiyou` and the
result holds no soft break. -/
theorem c1_normalize_roundtrip_witness :
    normalize_body ⟨withSoftBreaks [['h', 'i'], [], ['y', 'o', 'u']]⟩
        = ⟨[['h', 'i'], [], ['y', 'o', 'u']].flatten⟩ ∧
    ¬ softBreak <:+:
        (normalize_body ⟨withSoftBreaks [['h', 'i'], [], ['y', 'o', 'u']]⟩).data :=
  c1_normalize_roundtrip [['h', 'i'], [], ['y', 'o', 'u']] (by decide)

/-- C2: the ordering relation on `Message` orders strictly by creation
timestamp ascending — `Message.cmp a b` is exactly the comparison of the
created instants (with `lt`/`eq`/`gt` matching earlier/equal/later), and
no other field influences the order: two pairs agreeing on `created`
compare identically whatever their other fields are. -/
theorem c2_order_by_created :
    (∀ a b : Message, Message.cmp a b = compare a.created b.created) ∧
    (∀ a b : Message,
      (Message.cmp a b = Ordering.lt ↔ a.created < b.created) ∧
      (Message.cmp a b = Ordering.eq ↔ a.created = b.created) ∧
      (Message.cmp a b = Ordering.gt ↔ b.created < a.created)) ∧
    (∀ a b a' b' : Message, a.created = a'.created → b.created = b'.created →
      Message.cmp a b = Message.cmp a' b') := by
  refine ⟨fun a b => rfl,
    fun a b => ⟨compare_lt_iff_lt, compare_eq_iff_eq, compare_gt_iff_gt⟩, ?_⟩
  intro a b a' b' h1 h2
  simp [Message.cmp, h1, h2]

/-- C10: messages with equal creation timestamps compare as `Equal`
whatever their other fields, so the order is not consistent with
structural equality — there are messages comparing `Equal` that are not
equal, hence sorting cannot distinguish or tie-break them. -/
theorem c10_equal_created_ties :
    (∀ a b : Message, a.created = b.created → Message.cmp a b = Ordering.eq) ∧
    (∃ a b : Message, Message.cmp a b = Ordering.eq ∧ a ≠ b) := by
  constructor
  · exact fun a b h => compare_eq_iff_eq.2 h
  · refine ⟨⟨"a", ⟨"m", "d", "", none⟩, [], ⟨[], "", 0, none⟩, 0⟩,
      ⟨"b", ⟨"m", "d", "", none⟩, [], ⟨[], "", 0, none⟩, 0⟩, ?_, ?_⟩
    · exact compare_eq_iff_eq.2 rfl
    · decide

/-- C5: the search kind serializes to exactly one of the three lowercase
tokens `from`, `to`, `containing`, one fixed token per variant, and no
other token can be produced; the serialized search query carries that
token under the `kind` key. -/
theorem c5_search_kind_tokens :
    searchKindToken SearchKind.From = "from" ∧
    searchKindToken SearchKind.To = "to" ∧
    searchKindToken SearchKind.Containing = "containing" ∧
    (∀ k : SearchKind, searchKindToken k = "from" ∨ searchKindToken k = "to" ∨
      searchKindToken k = "containing") ∧
    (∀ q : SearchParams, ("kind", searchKindToken q.kind) ∈ searchQuery q) := by
  refine ⟨rfl, rfl, rfl, fun k => ?_, fun q => ?_⟩
  · cases k
    · exact Or.inl rfl
    · exact Or.inr (Or.inl rfl)
    · exact Or.inr (Or.inr rfl)
  · exact List.mem_cons_self _ _

/-- C6: decoding a `MessageList` payload whose `items` key is absent
succeeds with an empty items sequence (for any counter values), and in
particular the empty-mailbox response decodes to
`total = 0, count = 0, items = []`. -/
theorem c6_items_default_empty :
    (∀ t s c : Int,
      decodeMessageList (Json.obj [("total", Json.num t), ("start", Json.num s),
        ("count", Json.num c)]) = some ⟨t, s, c, []⟩) ∧
    decodeMessageList (Json.obj [("total", Json.num 0), ("count", Json.num 0),
      ("start", Json.num 0)]) = some ⟨0, 0, 0, []⟩ :=
  ⟨fun t s c => rfl, rfl⟩

/-- C8: an `EmailAddr` renders to text as exactly `mailbox@domain`;
`params` and `relays` are retained by decoding but never appear in the
rendered text, so display-based equality ignores them. -/
theorem c8_display_mailbox_domain :
    (∀ a : EmailAddr, EmailAddr.display a = a.mailbox ++ "@" ++ a.domain) ∧
    (∀ m d p₁ r₁ p₂ r₂, EmailAddr.display ⟨m, d, p₁, r₁⟩ = EmailAddr.display ⟨m, d, p₂, r₂⟩) ∧
    (∀ m d p r, decodeEmailAddr (Json.obj [("Mailbox", Json.str m), ("Domain", Json.str d),
      ("Params", Json.str p), ("Relays", Json.str r)]) = some ⟨m, d, p, some r⟩) :=
  ⟨fun a => rfl, fun m d p₁ r₁ p₂ r₂ => rfl, fun m d p r => rfl⟩

/-- C4: in the serialized query an absent optional field is omitted
entirely — a `start`/`limit` pair appears iff the field is present, and
then carries exactly the decimal rendering of its value (including an
explicit `0`); an absent field is never sent as an empty string nor as a
zero-valued default. -/
theorem c4_optional_query_fields :
    (∀ (p : ListMessagesParams) (v : String),
      (("start", v) ∈ listMessagesQuery p ↔ ∃ n, p.start = some n ∧ v = toString n) ∧
      (("limit", v) ∈ listMessagesQuery p ↔ ∃ n, p.limit = some n ∧ v = toString n)) ∧
    (∀ (q : SearchParams) (v : String),
      (("start", v) ∈ searchQuery q ↔ ∃ n, q.start = some n ∧ v = toString n) ∧
      (("limit", v) ∈ searchQuery q ↔ ∃ n, q.limit = some n ∧ v = toString n)) := by
  constructor
  · rintro ⟨s, l⟩ v
    cases s <;> cases l <;>
      simp +decide [listMessagesQuery, optIntPair, Prod.ext_iff, eq_comm]
  · rintro ⟨k, qs, s, l⟩ v
    cases s <;> cases l <;>
      simp +decide [searchQuery, optIntPair, Prod.ext_iff, eq_comm]

/-- C3 (amended): both retrieval operations consist of exactly one
execution of the built request with the single response handled by the
shared logic (no retry, no fallback); a transport failure propagates as
`transportError`; a client- or server-error status (400-599) yields
`httpStatusError` carrying the code without the body ever being decoded;
any other status whose body fails to decode as a `MessageList` yields
`malformedResponse`; and a success value arises only from fully decoding
the body (no partial result). -/
theorem c3_error_propagation :
    (∀ (srv : Request → HttpResult) (base : String) (p : ListMessagesParams),
      list_messages srv base p = handleResponse (srv (listMessagesRequest base p))) ∧
    (∀ (srv : Request → HttpResult) (base : String) (q : SearchParams),
      search srv base q = handleResponse (srv (searchRequest base q))) ∧
    handleResponse HttpResult.transportError = Except.error MhError.transportError ∧
    (∀ (status : Nat) (body : Json), isErrorStatus status = true →
      handleResponse (HttpResult.response status body)
        = Except.error (MhError.httpStatusError status)) ∧
    (∀ (status : Nat) (body body' : Json), isErrorStatus status = true →
      handleResponse (HttpResult.response status body)
        = handleResponse (HttpResult.response status body')) ∧
    (∀ (status : Nat) (body : Json), isErrorStatus status = false →
      decodeMessageList body = none →
      handleResponse (HttpResult.response status body)
        = Except.error MhError.malformedResponse) ∧
    (∀ (r : HttpResult) (ml : MessageList), handleResponse r = Except.ok ml →
      ∃ status body, r = HttpResult.response status body ∧
        isErrorStatus status = false ∧ decodeMessageList body = some ml) := by
  refine ⟨fun srv base p => rfl, fun srv base q => rfl, rfl, ?_, ?_, ?_, ?_⟩
  · intro status body h
    simp [handleResponse, h]
  · intro status body body' h
    simp [handleResponse, h]
  · intro status body h hd
    simp [handleResponse, h, hd]
  · intro r ml h
    cases r with
    | transportError => exact absurd h (by simp [handleResponse])
    | response status body =>
      refine ⟨status, body, rfl, ?_, ?_⟩ <;>
        revert h <;> simp only [handleResponse] <;>
        cases he : isErrorStatus status <;> cases hd : decodeMessageList body <;>
        intro h <;> simp_all

/-- Counterexample to C3 as stated: status 300 is a non-success status,
yet the response handling does not fail with an `httpStatusError` — it
decodes the body and succeeds. -/
theorem c3_status300_counterexample :
    handleResponse (HttpResult.response 300 body300)
        = Except.ok (⟨0, 0, 0, []⟩ : MessageList) ∧
    handleResponse (HttpResult.response 300 body300)
        ≠ Except.error (MhError.httpStatusError 300) := by
  refine ⟨rfl, fun h => ?_⟩
  rw [show handleResponse (HttpResult.response 300 body300)
      = Except.ok (⟨0, 0, 0, []⟩ : MessageList) from rfl] at h
  exact Except.noConfusion h

/-- C7: decoding a `Message` fails whenever a required field is absent or
of the wrong shape — a missing `ID` fails, a `Size` that does not decode
as a non-negative number (for example a string) fails, and a `Created`
value that does not parse as a timezone-qualified timestamp fails (an
offset-free timestamp is such a failure, an error rather than a clamped
value); when `Created` does parse, the offset form and its UTC
rendering decode to the same UTC instant. -/
theorem c7_decode_required_fields :
    (∀ fs : List (String × Json), getField fs "ID" = none →
      decodeMessage (Json.obj fs) = none) ∧
    (∀ fs : List (String × Json), (getField fs "Size" >>= asNat) = none →
      decodeMessageContent (Json.obj fs) = none) ∧
    (∀ fs : List (String × Json),
      ((getField fs "Created" >>= asString) >>= parseRfc3339) = none →
      decodeMessage (Json.obj fs) = none) ∧
    asNat (Json.str "notanumber") = none ∧
    parseRfc3339 "2024-05-01T10:30:00" = none ∧
    parseRfc3339 "2024-05-01T10:30:00+02:00" = parseRfc3339 "2024-05-01T08:30:00Z" ∧
    parseRfc3339 "2024-05-01T08:30:00Z" = some 1714552200000000000 := by
  refine ⟨?_, ?_, ?_, rfl, rfl, rfl, rfl⟩
  · intro fs h
    simp only [decodeMessage, asObj, h]
    rfl
  · intro fs h
    cases hH : getField fs "Headers" >>= decodeHeaders <;>
      cases hB : getField fs "Body" >>= asString <;>
      simp only [decodeMessageContent, asObj, hH, hB, h]
  · intro fs h
    cases hI : getField fs "ID" >>= asString <;>
      cases hF : getField fs "From" >>= decodeEmailAddr <;>
      cases hT : (getField fs "To" >>= asArr) >>= decodeList decodeEmailAddr <;>
      cases hC : getField fs "Content" >>= decodeMessageContent <;>
      simp only [decodeMessage, asObj, hI, hF, hT, hC, h]

theorem decodeList_length {α : Type} (f : Json → Option α) (l : List Json) :
    ∀ res : List α, decodeList f l = some res → res.length = l.length := by
  induction l with
  | nil =>
    intro res h
    simp only [decodeList, Option.some.injEq] at h
    rw [← h]
    rfl
  | cons j rest ih =>
    intro res h
    simp only [decodeList] at h
    rcases hf : f j with _ | a <;> rw [hf] at h
    · simp at h
    · rcases hr : decodeList f rest with _ | tail <;> rw [hr] at h
      · simp at h
      · simp only [Option.some.injEq] at h
        rw [← h]
        simp [ih tail hr]

/-- C9: a `MessageList` decoded from a well-formed server response (the
payload carries `count` equal to the length of its item array, itself at
most `total`) satisfies the invariant `count = items.length` and
`count <= total`: the decoder is lossless for the counters and preserves
the item count. -/
theorem c9_wellformed_invariant (fs : List (String × Json)) (ml : MessageList)
    (hwf : WellFormedListPayload fs)
    (hdec : decodeMessageList (Json.obj fs) = some ml) :
    ml.count = (ml.items.length : Int) ∧ ml.count ≤ ml.total := by
  obtain ⟨t, s, c, items, ht, hs, hc, hi, hlen, hle⟩ := hwf
  cases hdl : decodeList decodeMessage items with
  | none =>
    simp [decodeMessageList, asObj, asInt, asArr, Option.bind, ht, hs, hc, hi, hdl] at hdec
  | some msgs =>
    simp [decodeMessageList, asObj, asInt, asArr, Option.bind, ht, hs, hc, hi, hdl] at hdec
    rw [← hdec]
    exact ⟨by rw [hlen, decodeList_length decodeMessage items msgs hdl], hle⟩

/-- Witness for C9: the concrete one-item payload `c9fields` is
well-formed, decodes to `c9ml`, and `c9ml` satisfies the invariant. -/
theorem c9_wellformed_invariant_witness :
    decodeMessageList (Json.obj c9fields) = some c9ml ∧
    c9ml.count = (c9ml.items.length : Int) ∧ c9ml.count ≤ c9ml.total :=
  ⟨rfl, c9_wellformed_invariant c9fields c9ml
    ⟨1, 0, 1, [c9item], rfl, rfl, rfl, rfl, rfl, by decide⟩ rfl⟩

end Mailhog

